import Mathlib

/-!
Shallow embedding of the cellular-automaton core (src/grid.py, src/rules.py,
src/simulation.py).

Cells are naturals 0 (DAY) / 1 (NIGHT), stored row-major as in the numpy
array `cells[y][x]`.  Integer coordinates are embedded as `Int`; numpy
indexing semantics (negative indices wrap from the end, indices outside
`[-n, n)` raise `IndexError`) are modelled with `Option`.  The recursive
`move_entity` is embedded with explicit fuel; the `numpy` random generator
is an oracle `rng : Nat -> Nat` consulted at an incrementing counter, and
every result carries a flag recording whether the random branch was taken.
-/

namespace CellAuto

/-- `CellType` from src/rules.py: DAY = 0, NIGHT = 1. -/
inductive CellType where
  | day
  | night
deriving DecidableEq

/-- The integer value of a `CellType` (`IntEnum` in the source). -/
def CellType.toNat : CellType → Nat
  | .day => 0
  | .night => 1

/-- `Grid` from src/grid.py: width, height and the `cells` matrix
(row-major, `cells[y][x]`, values 0/1). -/
structure Grid where
  width : Nat
  height : Nat
  cells : List (List Nat)
deriving DecidableEq

/-- `Grid.__init__` followed by `initialize_split_grid`: zeros everywhere,
then `cells[:, width // 2 :] = 1`. -/
def Grid.create (w h : Nat) : Grid :=
  { width := w
    height := h
    cells := List.replicate h (List.replicate (w / 2) 0 ++ List.replicate (w - w / 2) 1) }

/-- Raw in-bounds cell read `cells[y][x]` (defaulting outside the lists). -/
def Grid.cellAt (g : Grid) (x y : Nat) : Nat :=
  (g.cells.getD y []).getD x 0

/-- numpy integer indexing into an axis of length `n`: an index in `[0, n)`
is used as is, an index in `[-n, 0)` wraps to `n + i`, anything else raises
`IndexError` (modelled as `none`). -/
def npIndex (n : Nat) (i : Int) : Option Nat :=
  if 0 ≤ i ∧ i < (n : Int) then some i.toNat
  else if -(n : Int) ≤ i ∧ i < 0 then some ((n : Int) + i).toNat
  else none

/-- `Grid.get_state(x, y)`: `self.cells[y, x]` with numpy index semantics. -/
def Grid.get_state (g : Grid) (x y : Int) : Option Nat :=
  match npIndex g.height y, npIndex g.width x with
  | some iy, some ix => some (g.cellAt ix iy)
  | _, _ => none

/-- `Grid.toggle_cell(x, y)`: `self.cells[y, x] = 1 - self.cells[y, x]`
with numpy index semantics. -/
def Grid.toggle_cell (g : Grid) (x y : Int) : Option Grid :=
  match npIndex g.height y, npIndex g.width x with
  | some iy, some ix =>
      some { g with cells := g.cells.set iy ((g.cells.getD iy []).set ix (1 - g.cellAt ix iy)) }
  | _, _ => none

/-- Resolve one toggle coordinate pair the way numpy fancy indexing
resolves `(x_coords[i], y_coords[i])`. -/
def resolveToggle (g : Grid) (t : Int × Int) : Option (Nat × Nat) :=
  match npIndex g.width t.1, npIndex g.height t.2 with
  | some ix, some iy => some (ix, iy)
  | _, _ => none

/-- Resolve every toggle coordinate, failing (numpy `IndexError`) if any
coordinate is outside `[-n, n)` on its axis. -/
def resolveAll (g : Grid) : List (Int × Int) → Option (List (Nat × Nat))
  | [] => some []
  | t :: ts =>
    match resolveToggle g t, resolveAll g ts with
    | some r, some rs => some (r :: rs)
    | _, _ => none

/-- One row of the scattered assignment: cell `(ix, iy)` receives
`1 - old` when `(ix, iy)` is among the resolved indices, else keeps its
value.  This is the numpy semantics of
`cells[ys, xs] = 1 - cells[ys, xs]`: the right-hand side is gathered from
the original array, so duplicate indices all store the same flipped value. -/
def flipRow (rs : List (Nat × Nat)) (iy : Nat) : Nat → List Nat → List Nat
  | _, [] => []
  | ix, v :: rest =>
      (if (ix, iy) ∈ rs then 1 - v else v) :: flipRow rs iy (ix + 1) rest

/-- All rows of the scattered assignment, starting at row index `iy`. -/
def flipRows (rs : List (Nat × Nat)) : Nat → List (List Nat) → List (List Nat)
  | _, [] => []
  | iy, row :: rest => flipRow rs iy 0 row :: flipRows rs (iy + 1) rest

/-- `OptimizedRules.apply_toggles_vectorized(grid, toggles)`: early return
on an empty list, otherwise the vectorized
`cells[y_coords, x_coords] = 1 - cells[y_coords, x_coords]`. -/
def apply_toggles_vectorized (g : Grid) (ts : List (Int × Int)) : Option Grid :=
  if ts.isEmpty then some g
  else
    match resolveAll g ts with
    | none => none
    | some rs => some { g with cells := flipRows rs 0 g.cells }

/-- `OptimizedRules._direction_vectors`: the 8 pre-computed `(dx, dy)` unit
vectors, indexed 0..7 (0 ↖, 1 ↑, 2 ↗, 3 ←, 4 →, 5 ↙, 6 ↓, 7 ↘).  The
source array has exactly 8 entries; other indices are unreachable. -/
def dirVec : Nat → Int × Int
  | 0 => (-1, -1)
  | 1 => (0, -1)
  | 2 => (1, -1)
  | 3 => (-1, 0)
  | 4 => (1, 0)
  | 5 => (-1, 1)
  | 6 => (0, 1)
  | 7 => (1, 1)
  | _ => (0, 0)

/-- `OptimizedRules._diagonal_dirs = [0, 2, 5, 7]`. -/
def diagonalDirs : List Nat := [0, 2, 5, 7]

/-- The boundary tags returned by `_check_boundaries`. -/
inductive Boundary where
  | top
  | bottom
  | left
  | right
deriving DecidableEq

/-- `OptimizedRules._check_boundaries(x, y, width, height)`: tests
`y < 0`, `y >= height`, `x < 0`, `x >= width` in that order. -/
def check_boundaries (x y : Int) (w h : Nat) : Option Boundary :=
  if y < 0 then some .top
  else if (h : Int) ≤ y then some .bottom
  else if x < 0 then some .left
  else if (w : Int) ≤ x then some .right
  else none

/-- `OptimizedRules._create_boundary_lookup` composed with
`_get_boundary_reflection`: the 8-entry dictionary with
`dict.get(key, direction)` default.  (The source function also receives
unused position/size arguments.) -/
def boundary_reflection (d : Nat) (b : Boundary) : Nat :=
  match d, b with
  | 0, .top => 5
  | 2, .top => 7
  | 5, .bottom => 0
  | 7, .bottom => 2
  | 0, .left => 2
  | 5, .left => 7
  | 2, .right => 0
  | 7, .right => 5
  | _, _ => d

/-- `OptimizedRules._get_collision_alternatives`: the alternatives
dictionary with `dict.get(direction, [])` default. -/
def collision_alternatives : Nat → List Nat
  | 0 => [2, 5]
  | 2 => [0, 7]
  | 5 => [0, 7]
  | 7 => [2, 5]
  | _ => []

/-- `OptimizedRules._get_additional_cells_for_direction`. -/
def additional_cells_for_direction : Nat → List Nat
  | 2 => [3]
  | 5 => [4]
  | 0 => [4]
  | 7 => [1]
  | _ => []

/-- `OptimizedRules._get_multiple_additional_cells`. -/
def multiple_additional_cells : Nat → List Nat
  | 0 => [4, 3]
  | 2 => [3, 6]
  | 5 => [4, 6]
  | 7 => [1, 3]
  | _ => []

/-- `Entity` from src/entities.py (position, previous position, type; the
color field plays no role in the rules engine). -/
structure Entity where
  x : Int
  y : Int
  px : Int
  py : Int
  type : CellType
deriving DecidableEq

/-- `MoveResult` from src/rules.py. -/
structure MoveResult where
  success : Bool
  new_x : Int
  new_y : Int
  additional_toggles : List (Int × Int)
deriving DecidableEq

/-- The mutable state of an `OptimizedRules` instance relevant to moves:
the grid it operates on, the per-type direction dictionary
`_entity_directions` (two slots) and a counter of random draws made so
far (indexing the `rng` oracle). -/
structure Engine where
  grid : Grid
  dirNight : Nat
  dirDay : Nat
  rngCnt : Nat
deriving DecidableEq

/-- `self._entity_directions[entity_type]`. -/
def Engine.getDir (s : Engine) : CellType → Nat
  | .night => s.dirNight
  | .day => s.dirDay

/-- `self._entity_directions[entity_type] = d`. -/
def Engine.setDir (s : Engine) : CellType → Nat → Engine
  | .night, d => { s with dirNight := d }
  | .day, d => { s with dirDay := d }

/-- `OptimizedRules.__init__` paired with a grid: both direction slots
start at `LEFT_UP = 0`, no random draws made. -/
def Engine.init (g : Grid) : Engine :=
  { grid := g, dirNight := 0, dirDay := 0, rngCnt := 0 }

/-- `OptimizedRules._validate_coordinates(x, y, grid)`. -/
def validate_coordinates (g : Grid) (x y : Int) : Bool :=
  decide (0 ≤ x) && decide (x < (g.width : Int)) &&
    decide (0 ≤ y) && decide (y < (g.height : Int))

/-- Total read used under a `validate_coordinates` guard (in-bounds, so
numpy indexing is plain indexing). -/
def Grid.cellAtI (g : Grid) (x y : Int) : Nat :=
  g.cellAt x.toNat y.toNat

/-- The `for alt_dir in alternatives` loop of
`OptimizedRules._handle_collision`: the first alternative whose candidate
cell (entity position + alternative vector) is in-bounds and not of the
entity's type. -/
def findFirstAlternative (g : Grid) (e : Entity) : List Nat → Option Nat
  | [] => none
  | a :: rest =>
    let v := dirVec a
    if validate_coordinates g (e.x + v.1) (e.y + v.2) &&
        decide (g.cellAtI (e.x + v.1) (e.y + v.2) ≠ e.type.toNat) then some a
    else findFirstAlternative g e rest

/-- `OptimizedRules._handle_collision(entity, x, y, grid)`: returns the
new direction, the additional-cell direction list, and whether the random
fallback (`self._rng.choice(self._diagonal_dirs)`) was consulted. -/
def handle_collision (rng : Nat → Nat) (s : Engine) (e : Entity) : Nat × List Nat × Bool :=
  let d := s.getDir e.type
  match findFirstAlternative s.grid e (collision_alternatives d) with
  | some alt => (alt, additional_cells_for_direction alt, false)
  | none => (diagonalDirs.getD (rng s.rngCnt % 4) 0, multiple_additional_cells d, true)

/-- `OptimizedRules._get_precise_collision_toggles` (reached through
`_get_collision_toggles`): offsets from the collision point, keeping only
in-bounds positions. -/
def get_precise_collision_toggles (g : Grid) (cx cy : Int) (cells : List Nat) :
    List (Int × Int) :=
  if cells.isEmpty then []
  else if !validate_coordinates g cx cy then []
  else
    (cells.map fun c => (cx + (dirVec c).1, cy + (dirVec c).2)).filter
      fun p => validate_coordinates g p.1 p.2

/-- `OptimizedRules.move_entity(entity, grid)`, with explicit fuel for the
unbounded recursion.  Returns the updated engine state (grid, direction
slots, random counter), the updated entity, the `MoveResult`, and a flag
recording whether any collision on the way consulted the random
generator.  `none` means the fuel ran out (the Python recursion would
still be running) or an index error escaped. -/
def move_entity (rng : Nat → Nat) : Nat → Engine → Entity →
    Option (Engine × Entity × MoveResult × Bool)
  | 0, _, _ => none
  | fuel + 1, s, e =>
    let d := s.getDir e.type
    let v := dirVec d
    let nx := e.x + v.1
    let ny := e.y + v.2
    match check_boundaries nx ny s.grid.width s.grid.height with
    | some b => move_entity rng fuel (s.setDir e.type (boundary_reflection d b)) e
    | none =>
      match s.grid.get_state nx ny with
      | none => none
      | some cell =>
        if cell = e.type.toNat then
          let hc := handle_collision rng s e
          let s1 := s.setDir e.type hc.1
          let s2 := { s1 with rngCnt := s1.rngCnt + (if hc.2.2 then 1 else 0) }
          match s2.grid.toggle_cell nx ny with
          | none => none
          | some g2 =>
            let s3 := { s2 with grid := g2 }
            let extra := get_precise_collision_toggles g2 nx ny hc.2.1
            match move_entity rng fuel s3 e with
            | none => none
            | some (s4, e4, r, u) =>
              some (s4, e4,
                { r with additional_toggles := r.additional_toggles ++ (nx, ny) :: extra },
                hc.2.2 || u)
        else
          some (s, { e with px := e.x, py := e.y, x := nx, y := ny },
            ⟨true, nx, ny, []⟩, false)

/-- `OptimizedRules.batch_move_entities(entities, grid)`: moves the
entities in list order, concatenating the toggle lists of the successful
moves.  Also returns the updated entities in order and the or of the
random-use flags. -/
def batch_move_entities (rng : Nat → Nat) (fuel : Nat) :
    Engine → List Entity → Option (Engine × List Entity × List (Int × Int) × Bool)
  | s, [] => some (s, [], [], false)
  | s, e :: es =>
    match move_entity rng fuel s e with
    | none => none
    | some (s1, e1, r, u1) =>
      match batch_move_entities rng fuel s1 es with
      | none => none
      | some (s2, es2, ts2, u2) =>
        some (s2, e1 :: es2,
          (if r.success then r.additional_toggles else []) ++ ts2, u1 || u2)

/-- `Simulation.step_optimized` without the count bookkeeping: batch-move
all entities, then apply the accumulated toggles to the grid. -/
def step_optimized (rng : Nat → Nat) (fuel : Nat) (s : Engine) (es : List Entity) :
    Option (Engine × List Entity × List (Int × Int) × Bool) :=
  match batch_move_entities rng fuel s es with
  | none => none
  | some (s1, es1, ts, u) =>
    match apply_toggles_vectorized s1.grid ts with
    | none => none
    | some g2 => some ({ s1 with grid := g2 }, es1, ts, u)

/-- A run of `n` optimized simulation steps, recording after each step the
entity list (the trajectory) and the toggle list of that step. -/
def run_steps (rng : Nat → Nat) (fuel : Nat) :
    Nat → Engine → List Entity →
    Option (Engine × List Entity × List (List Entity × List (Int × Int)) × Bool)
  | 0, s, es => some (s, es, [], false)
  | n + 1, s, es =>
    match step_optimized rng fuel s es with
    | none => none
    | some (s1, es1, ts, u1) =>
      match run_steps rng fuel n s1 es1 with
      | none => none
      | some (s2, es2, trace, u2) => some (s2, es2, (es1, ts) :: trace, u1 || u2)

/-- A constant oracle used for concrete evaluations. -/
def rng0 : Nat → Nat := fun _ => 0

/-- A second constant oracle, distinct from `rng0`. -/
def rng1 : Nat → Nat := fun _ => 1

/-- The direction invariant: an index denoting one of the four diagonals. -/
def isDiagonal (d : Nat) : Prop := d = 0 ∨ d = 2 ∨ d = 5 ∨ d = 7

instance (d : Nat) : Decidable (isDiagonal d) := by
  unfold isDiagonal
  infer_instance

/-! ## Helper lemmas -/

theorem getD_replicate {α : Type} (a d : α) :
    ∀ {n i : Nat}, i < n → (List.replicate n a).getD i d = a := by
  intro n
  induction n with
  | zero => intro i h; omega
  | succ n ih =>
    intro i h
    cases i with
    | zero => rfl
    | succ i =>
      rw [List.replicate_succ, List.getD_cons_succ]
      exact ih (Nat.lt_of_succ_lt_succ h)

theorem getD_append_left {α : Type} (l₁ l₂ : List α) (d : α) :
    ∀ {i : Nat}, i < l₁.length → (l₁ ++ l₂).getD i d = l₁.getD i d := by
  induction l₁ with
  | nil => intro i h; simp at h
  | cons a l ih =>
    intro i h
    cases i with
    | zero => rfl
    | succ i =>
      rw [List.cons_append, List.getD_cons_succ, List.getD_cons_succ]
      exact ih (Nat.lt_of_succ_lt_succ h)

theorem getD_append_right {α : Type} (l₁ l₂ : List α) (d : α) :
    ∀ {i : Nat}, l₁.length ≤ i → (l₁ ++ l₂).getD i d = l₂.getD (i - l₁.length) d := by
  induction l₁ with
  | nil => intro i _; rfl
  | cons a l ih =>
    intro i h
    cases i with
    | zero => simp at h
    | succ i =>
      rw [List.cons_append, List.getD_cons_succ]
      simpa using ih (Nat.le_of_succ_le_succ h)

/-! ## C6: boundary reflection table -/

/-- C6: boundary reflection is exactly the four-rule table (two entries
per boundary): top sends ↖ to ↙ and ↗ to ↘; bottom sends ↙ to ↖ and ↘ to
↗; left sends ↖ to ↗ and ↙ to ↘; right sends ↗ to ↖ and ↘ to ↙; every
(direction, boundary) pair not listed leaves the direction unchanged. -/
theorem boundary_reflection_table :
    boundary_reflection 0 Boundary.top = 5 ∧ boundary_reflection 2 Boundary.top = 7 ∧
    boundary_reflection 5 Boundary.bottom = 0 ∧ boundary_reflection 7 Boundary.bottom = 2 ∧
    boundary_reflection 0 Boundary.left = 2 ∧ boundary_reflection 5 Boundary.left = 7 ∧
    boundary_reflection 2 Boundary.right = 0 ∧ boundary_reflection 7 Boundary.right = 5 ∧
    ∀ d b, ¬((d = 0 ∧ b = Boundary.top) ∨ (d = 2 ∧ b = Boundary.top) ∨
        (d = 5 ∧ b = Boundary.bottom) ∨ (d = 7 ∧ b = Boundary.bottom) ∨
        (d = 0 ∧ b = Boundary.left) ∨ (d = 5 ∧ b = Boundary.left) ∨
        (d = 2 ∧ b = Boundary.right) ∨ (d = 7 ∧ b = Boundary.right)) →
      boundary_reflection d b = d := by
  refine ⟨rfl, rfl, rfl, rfl, rfl, rfl, rfl, rfl, ?_⟩
  intro d b h
  rcases d with _ | _ | _ | _ | _ | _ | _ | _ | d <;> cases b <;>
    first
      | rfl
      | exact absurd (by decide) h

/-- Witness for C6 at the unlisted pair (direction ↑, top boundary). -/
theorem boundary_reflection_table_witness : boundary_reflection 1 Boundary.top = 1 :=
  boundary_reflection_table.2.2.2.2.2.2.2.2 1 Boundary.top (by decide)

/-! ## C8: the corner-reflection scenario -/

/-- C8: on a 5×5 grid, for a NIGHT entity at (0,0) with direction ↖, one
move call first hits the top boundary at candidate (-1,-1) (↖ becomes ↙),
then the left boundary at recomputed candidate (-1,1) (↙ becomes ↘), and
the resulting candidate (1,1) is a normal in-bounds step: the entity ends
at (1,1) with direction ↘, success, and no toggles. -/
theorem scenario_corner_reflection (rng : Nat → Nat) :
    check_boundaries (-1) (-1) 5 5 = some Boundary.top ∧
    boundary_reflection 0 Boundary.top = 5 ∧
    check_boundaries (-1) 1 5 5 = some Boundary.left ∧
    boundary_reflection 5 Boundary.left = 7 ∧
    check_boundaries 1 1 5 5 = none ∧
    move_entity rng 3 (Engine.init (Grid.create 5 5)) ⟨0, 0, 0, 0, CellType.night⟩ =
      some ({ Engine.init (Grid.create 5 5) with dirNight := 7 },
        ⟨1, 1, 0, 0, CellType.night⟩, ⟨true, 1, 1, []⟩, false) :=
  ⟨rfl, rfl, rfl, rfl, rfl, rfl⟩

/-! ## C5: the initial split -/

/-- C5 counterexample: on a width-5 grid the middle column 5 // 2 = 2 is
NIGHT (1) after creation, while the claim says every column with index at
most W // 2 is DAY (0). -/
theorem create_middle_column_counterexample :
    5 / 2 = 2 ∧ (Grid.create 5 1).cellAt 2 0 = 1 :=
  ⟨rfl, rfl⟩

/-- C5 amended: after creation every cell in a column with index strictly
below W // 2 is DAY (0) and every cell in a column with index at least
W // 2 is NIGHT (1): the middle column W // 2 rounds toward NIGHT. -/
theorem create_split (w h x y : Nat) (hx : x < w) (hy : y < h) :
    (Grid.create w h).cellAt x y = if x < w / 2 then 0 else 1 := by
  show ((List.replicate h _).getD y []).getD x 0 = _
  rw [getD_replicate _ _ hy]
  by_cases hx2 : x < w / 2
  · rw [if_pos hx2, getD_append_left _ _ _ (by simpa using hx2), getD_replicate _ _ hx2]
  · rw [if_neg hx2, getD_append_right _ _ _ (by simpa using Nat.le_of_not_lt hx2)]
    rw [List.length_replicate]
    exact getD_replicate _ _ (by omega)

/-- Witness for C5 amended on a 5×5 grid at column 2, row 0. -/
theorem create_split_witness :
    (Grid.create 5 5).cellAt 2 0 = if 2 < 5 / 2 then 0 else 1 :=
  create_split 5 5 2 0 (by decide) (by decide)

/-! ## C4: out-of-bounds access -/

theorem npIndex_none_iff (n : Nat) (i : Int) :
    npIndex n i = none ↔ i < -(n : Int) ∨ (n : Int) ≤ i := by
  unfold npIndex
  by_cases h1 : 0 ≤ i ∧ i < (n : Int)
  · rw [if_pos h1]
    constructor
    · intro hc; cases hc
    · intro hc; omega
  · by_cases h2 : -(n : Int) ≤ i ∧ i < 0
    · rw [if_neg h1, if_pos h2]
      constructor
      · intro hc; cases hc
      · intro hc; omega
    · rw [if_neg h1, if_neg h2]
      constructor
      · intro _; omega
      · intro _; rfl

/-- C4 counterexample: on a 2×2 grid, the out-of-range coordinate
(-1, 0) does not fail: `get_state(-1, 0)` returns the cell in the last
column (Python negative indexing wraps) and `toggle_cell(-1, 0)` flips
that cell, while the claim says both must fail with OutOfBounds. -/
theorem grid_bounds_counterexample :
    (Grid.create 2 2).get_state (-1) 0 = some 1 ∧
    (Grid.create 2 2).toggle_cell (-1) 0 =
      some { width := 2, height := 2, cells := [[0, 0], [0, 1]] } :=
  ⟨rfl, rfl⟩

/-- C4 amended: `get_state` and `toggle_cell` fail exactly when x falls
outside [-W, W) or y falls outside [-H, H); negative coordinates within
[-W, 0) or [-H, 0) wrap Python-style to W+x / H+y and do return or flip a
cell, so a negative in-range coordinate is not rejected. -/
theorem grid_ops_failure_characterization (g : Grid) (x y : Int) :
    (g.get_state x y = none ↔
      x < -(g.width : Int) ∨ (g.width : Int) ≤ x ∨
        y < -(g.height : Int) ∨ (g.height : Int) ≤ y) ∧
    (g.toggle_cell x y = none ↔
      x < -(g.width : Int) ∨ (g.width : Int) ≤ x ∨
        y < -(g.height : Int) ∨ (g.height : Int) ≤ y) := by
  unfold Grid.get_state Grid.toggle_cell
  rcases hy : npIndex g.height y with _ | iy <;> rcases hx : npIndex g.width x with _ | ix
  · have hy' := (npIndex_none_iff g.height y).mp hy
    exact ⟨⟨fun _ => by tauto, fun _ => rfl⟩, ⟨fun _ => by tauto, fun _ => rfl⟩⟩
  · have hy' := (npIndex_none_iff g.height y).mp hy
    exact ⟨⟨fun _ => by tauto, fun _ => rfl⟩, ⟨fun _ => by tauto, fun _ => rfl⟩⟩
  · have hx' := (npIndex_none_iff g.width x).mp hx
    exact ⟨⟨fun _ => by tauto, fun _ => rfl⟩, ⟨fun _ => by tauto, fun _ => rfl⟩⟩
  · have hy' : ¬(y < -(g.height : Int) ∨ (g.height : Int) ≤ y) := by
      intro hc
      rw [(npIndex_none_iff g.height y).mpr hc] at hy
      cases hy
    have hx' : ¬(x < -(g.width : Int) ∨ (g.width : Int) ≤ x) := by
      intro hc
      rw [(npIndex_none_iff g.width x).mpr hc] at hx
      cases hx
    refine ⟨⟨fun hc => ?_, fun hc => ?_⟩, ⟨fun hc => ?_, fun hc => ?_⟩⟩
    · cases hc
    · exact absurd hc (by tauto)
    · cases hc
    · exact absurd hc (by tauto)

/-! ## C1: duplicate toggles -/

theorem resolveAll_cons (g : Grid) (t : Int × Int) (ts : List (Int × Int)) :
    resolveAll g (t :: ts) =
      match resolveToggle g t, resolveAll g ts with
      | some r, some rs => some (r :: rs)
      | _, _ => none :=
  rfl

theorem resolveAll_none_of_mem (g : Grid) {t : Int × Int} {ts : List (Int × Int)}
    (hmem : t ∈ ts) (hnone : resolveToggle g t = none) : resolveAll g ts = none := by
  induction ts with
  | nil => cases hmem
  | cons a rest ih =>
    rcases List.mem_cons.mp hmem with h | h
    · subst h
      rw [resolveAll_cons, hnone]
    · rw [resolveAll_cons, ih h]
      rcases ha : resolveToggle g a with _ | r <;> rfl

theorem resolveAll_mem (g : Grid) {t : Int × Int} {r : Nat × Nat} :
    ∀ {ts : List (Int × Int)} {rs : List (Nat × Nat)},
      resolveAll g ts = some rs → t ∈ ts → resolveToggle g t = some r → r ∈ rs := by
  intro ts
  induction ts with
  | nil => intro rs _ hmem _; cases hmem
  | cons a rest ih =>
    intro rs hall hmem hres
    unfold resolveAll at hall
    rcases ha : resolveToggle g a with _ | ra <;> rw [ha] at hall
    · cases hall
    · rcases hrest : resolveAll g rest with _ | rrest <;> rw [hrest] at hall
      · cases hall
      · cases hall
        rcases List.mem_cons.mp hmem with h | h
        · subst h
          rw [ha] at hres
          cases hres
          exact List.mem_cons_self _ _
        · exact List.mem_cons_of_mem _ (ih hrest h hres)

theorem flipRow_congr {rs₁ rs₂ : List (Nat × Nat)}
    (h : ∀ p, p ∈ rs₁ ↔ p ∈ rs₂) (iy : Nat) :
    ∀ ix row, flipRow rs₁ iy ix row = flipRow rs₂ iy ix row := by
  intro ix row
  induction row generalizing ix with
  | nil => rfl
  | cons v rest ih =>
    unfold flipRow
    rw [ih]
    by_cases hp : (ix, iy) ∈ rs₁
    · rw [if_pos hp, if_pos ((h _).mp hp)]
    · rw [if_neg hp, if_neg (fun hc => hp ((h _).mpr hc))]

theorem flipRows_congr {rs₁ rs₂ : List (Nat × Nat)}
    (h : ∀ p, p ∈ rs₁ ↔ p ∈ rs₂) :
    ∀ iy rows, flipRows rs₁ iy rows = flipRows rs₂ iy rows := by
  intro iy rows
  induction rows generalizing iy with
  | nil => rfl
  | cons row rest ih =>
    unfold flipRows
    rw [flipRow_congr h, ih]

/-- C1 counterexample: on a 1×1 grid (whose single cell starts as NIGHT),
one `apply_toggles_vectorized` call listing (0,0) twice leaves the cell
DAY (flipped once), not in its pre-call state NIGHT: numpy fancy-index
assignment gathers from the original array, so duplicates do not
accumulate. -/
theorem duplicate_toggle_counterexample :
    apply_toggles_vectorized (Grid.create 1 1) [(0, 0), (0, 0)] =
      some { width := 1, height := 1, cells := [[0]] } ∧
    (Grid.create 1 1).cellAt 0 0 = 1 :=
  ⟨rfl, rfl⟩

/-- C1 amended: in one `apply_toggles_vectorized` call, each coordinate
occurring in the list is flipped exactly once no matter how often it
occurs — duplicate occurrences are absorbed (no net-parity semantics):
prepending a coordinate that already occurs in the list does not change
the result. -/
theorem apply_toggles_duplicate (g : Grid) (t : Int × Int) (ts : List (Int × Int))
    (h : t ∈ ts) :
    apply_toggles_vectorized g (t :: ts) = apply_toggles_vectorized g ts := by
  rcases ts with _ | ⟨a, rest⟩
  · cases h
  · unfold apply_toggles_vectorized
    rw [show ((t :: a :: rest).isEmpty) = false from rfl,
      show ((a :: rest).isEmpty) = false from rfl]
    simp only [Bool.false_eq_true, if_false]
    rcases ht : resolveToggle g t with _ | r
    · have hall : resolveAll g (t :: a :: rest) = none := by
        rw [resolveAll_cons, ht]
      rw [hall, resolveAll_none_of_mem g h ht]
    · rcases hrest : resolveAll g (a :: rest) with _ | rs
      · have hall : resolveAll g (t :: a :: rest) = none := by
          rw [resolveAll_cons, ht, hrest]
        rw [hall]
      · have hall : resolveAll g (t :: a :: rest) = some (r :: rs) := by
          rw [resolveAll_cons, ht, hrest]
        rw [hall]
        show some { g with cells := flipRows (r :: rs) 0 g.cells } =
          some { g with cells := flipRows rs 0 g.cells }
        have hr : r ∈ rs := resolveAll_mem g hrest h ht
        have hiff : ∀ p, p ∈ r :: rs ↔ p ∈ rs := by
          intro p
          constructor
          · intro hp
            rcases List.mem_cons.mp hp with hp | hp
            · subst hp; exact hr
            · exact hp
          · exact List.mem_cons_of_mem _
        rw [flipRows_congr hiff]

/-- Witness for C1 amended: duplicating (0,0) in the list leaves the
result unchanged. -/
theorem apply_toggles_duplicate_witness :
    apply_toggles_vectorized (Grid.create 1 1) [(0, 0), (0, 0)] =
      apply_toggles_vectorized (Grid.create 1 1) [(0, 0)] :=
  apply_toggles_duplicate (Grid.create 1 1) (0, 0) [(0, 0)] (by decide)

/-! ## Engine helper lemmas -/

theorem Engine.setDir_grid (s : Engine) (t : CellType) (d : Nat) :
    (s.setDir t d).grid = s.grid := by
  cases t <;> rfl

theorem Engine.getDir_setDir_self (s : Engine) (t : CellType) (d : Nat) :
    (s.setDir t d).getDir t = d := by
  cases t <;> rfl

/-! ## C3: the retry chain is unbounded -/

theorem move_entity_one_by_one_loop (rng : Nat → Nat) (fuel : Nat) :
    move_entity rng fuel (Engine.init (Grid.create 1 1)) ⟨0, 0, 0, 0, CellType.night⟩ = none ∧
    move_entity rng fuel { Engine.init (Grid.create 1 1) with dirNight := 5 }
      ⟨0, 0, 0, 0, CellType.night⟩ = none := by
  induction fuel with
  | zero => exact ⟨rfl, rfl⟩
  | succ n ih => exact ⟨ih.2, ih.1⟩

/-- C3: the boundary retry chain inside one move call is not bounded by
the implementation and no RetryLimitExceeded condition exists: on a 1×1
grid with the entity at (0,0), the candidate always crosses a boundary,
the direction state alternates ↖ to ↙ (top) and back ↙ to ↖ (bottom)
forever, and the recursion never returns for any recursion depth. -/
theorem move_entity_unbounded_retry (rng : Nat → Nat) (fuel : Nat) :
    move_entity rng fuel (Engine.init (Grid.create 1 1)) ⟨0, 0, 0, 0, CellType.night⟩ =
      none :=
  (move_entity_one_by_one_loop rng fuel).1

/-! ## C2: a collision toggles the grid during the move -/

/-- C2 counterexample: on a 5×5 grid a DAY entity at (1,1) with direction
↖ collides at (0,0); the move call itself flips cell (0,0) on the grid
(it ends NIGHT = 1 although it was DAY = 0 before the call) while also
returning (0,0) in the result's toggle list. -/
theorem move_mutates_grid_counterexample :
    (move_entity rng0 2 (Engine.init (Grid.create 5 5)) ⟨1, 1, 0, 0, CellType.day⟩).map
        (fun o => (o.1.grid.cellAt 0 0, o.2.2.1.additional_toggles)) =
      some (1, [(0, 0)]) ∧
    (Engine.init (Grid.create 5 5)).grid.cellAt 0 0 = 0 :=
  ⟨rfl, rfl⟩

/-! ## Move helper lemmas -/

theorem setDir_diag {s : Engine} (t : CellType) {d : Nat}
    (hN : isDiagonal s.dirNight) (hD : isDiagonal s.dirDay) (hd : isDiagonal d) :
    isDiagonal (s.setDir t d).dirNight ∧ isDiagonal (s.setDir t d).dirDay := by
  cases t
  · exact ⟨hN, hd⟩
  · exact ⟨hd, hD⟩

theorem getDir_diag {s : Engine} (hN : isDiagonal s.dirNight)
    (hD : isDiagonal s.dirDay) (t : CellType) : isDiagonal (s.getDir t) := by
  cases t
  · exact hD
  · exact hN

theorem boundary_reflection_diag {d : Nat} (h : isDiagonal d) (b : Boundary) :
    isDiagonal (boundary_reflection d b) := by
  rcases h with h | h | h | h <;> subst h <;> cases b <;> decide

theorem findFirstAlternative_mem (g : Grid) (e : Entity) :
    ∀ (l : List Nat) (a : Nat), findFirstAlternative g e l = some a → a ∈ l := by
  intro l
  induction l with
  | nil => intro a h; cases h
  | cons b rest ih =>
    intro a h
    simp only [findFirstAlternative] at h
    split at h
    · cases h
      exact List.mem_cons_self _ _
    · exact List.mem_cons_of_mem _ (ih _ h)

theorem handle_collision_diag (rng : Nat → Nat) (s : Engine) (e : Entity)
    (hd : isDiagonal (s.getDir e.type)) :
    isDiagonal (handle_collision rng s e).1 := by
  simp only [handle_collision]
  split
  · rename_i alt heq
    have hmem := findFirstAlternative_mem s.grid e _ _ heq
    rcases hd with h | h | h | h <;> rw [h] at hmem <;>
      simp only [collision_alternatives] at hmem <;> fin_cases hmem <;> decide
  · have h4 : rng s.rngCnt % 4 < 4 := Nat.mod_lt _ (by decide)
    set k := rng s.rngCnt % 4 with hk
    interval_cases k <;> dsimp only <;> decide

theorem handle_collision_det (rng₁ rng₂ : Nat → Nat) (s : Engine) (e : Entity)
    (h : (handle_collision rng₁ s e).2.2 = false) :
    handle_collision rng₂ s e = handle_collision rng₁ s e := by
  simp only [handle_collision] at h ⊢
  rcases hf : findFirstAlternative s.grid e (collision_alternatives (s.getDir e.type))
    with _ | alt
  · rw [hf] at h
    simp at h
  · rfl

theorem move_entity_dirs_diag (rng : Nat → Nat) :
    ∀ (fuel : Nat) (s : Engine) (e : Entity)
      (out : Engine × Entity × MoveResult × Bool),
      move_entity rng fuel s e = some out →
      isDiagonal s.dirNight → isDiagonal s.dirDay →
      isDiagonal out.1.dirNight ∧ isDiagonal out.1.dirDay := by
  intro fuel
  induction fuel with
  | zero => intro s e out hm _ _; cases hm
  | succ n ih =>
    intro s e out hm hN hD
    simp only [move_entity] at hm
    split at hm
    · rename_i b hb
      have hsd := setDir_diag e.type hN hD
        (boundary_reflection_diag (getDir_diag hN hD e.type) b)
      exact ih _ _ _ hm hsd.1 hsd.2
    · split at hm
      · cases hm
      · split at hm
        · split at hm
          · cases hm
          · split at hm
            · cases hm
            · rename_i s4 e4 r4 u4 hrec
              cases hm
              have hhc := handle_collision_diag rng s e (getDir_diag hN hD e.type)
              have hsd := setDir_diag e.type hN hD hhc
              have h5 := ih _ _ _ hrec hsd.1 hsd.2
              exact h5
        · cases hm
          exact ⟨hN, hD⟩

theorem move_entity_det (rng₁ rng₂ : Nat → Nat) :
    ∀ (fuel : Nat) (s : Engine) (e : Entity) (s' : Engine) (e' : Entity) (r : MoveResult),
      move_entity rng₁ fuel s e = some (s', e', r, false) →
      move_entity rng₂ fuel s e = some (s', e', r, false) := by
  intro fuel
  induction fuel with
  | zero => intro s e s' e' r hm; cases hm
  | succ n ih =>
    intro s e s' e' r hm
    simp only [move_entity] at hm ⊢
    split at hm
    · rename_i b hb
      exact ih _ _ _ _ _ hm
    · rename_i hb
      split at hm
      · cases hm
      · rename_i cell hcell
        split at hm
        · rename_i hcoll
          split at hm
          · cases hm
          · rename_i g2 hg2
            split at hm
            · cases hm
            · rename_i s4 e4 r4 u4 hrec
              rw [Option.some.injEq, Prod.mk.injEq, Prod.mk.injEq, Prod.mk.injEq] at hm
              obtain ⟨hs, he, hr, hu⟩ := hm
              rw [Bool.or_eq_false_iff] at hu
              have hcdet := handle_collision_det rng₁ rng₂ s e hu.1
              rw [hcdet, hg2]
              dsimp only
              have hrec2 := ih _ _ _ _ _ (hu.2 ▸ hrec)
              rw [hrec2]
              dsimp only
              rw [hs, he, hr, hu.1, if_pos hcoll]
              rfl
        · rename_i hcoll
          rw [if_neg hcoll]
          exact hm

theorem batch_move_det (rng₁ rng₂ : Nat → Nat) (fuel : Nat) :
    ∀ (es : List Entity) (s s' : Engine) (es' : List Entity) (ts : List (Int × Int)),
      batch_move_entities rng₁ fuel s es = some (s', es', ts, false) →
      batch_move_entities rng₂ fuel s es = some (s', es', ts, false) := by
  intro es
  induction es with
  | nil => intro s s' es' ts hm; exact hm
  | cons e rest ih =>
    intro s s' es' ts hm
    simp only [batch_move_entities] at hm ⊢
    split at hm
    · cases hm
    · rename_i s1 e1 r u1 hmv
      split at hm
      · cases hm
      · rename_i s2 es2 ts2 u2 hb
        rw [Option.some.injEq, Prod.mk.injEq, Prod.mk.injEq, Prod.mk.injEq] at hm
        obtain ⟨hs, hes, hts, hu⟩ := hm
        rw [Bool.or_eq_false_iff] at hu
        have hmv2 := move_entity_det rng₁ rng₂ fuel s e _ _ _ (hu.1 ▸ hmv)
        rw [hmv2]
        dsimp only
        have hb2 := ih _ _ _ _ (hu.2 ▸ hb)
        rw [hb2]
        dsimp only
        rw [hs, hes, hts]
        rfl

theorem step_optimized_det (rng₁ rng₂ : Nat → Nat) (fuel : Nat) (s : Engine)
    (es : List Entity) (s' : Engine) (es' : List Entity) (ts : List (Int × Int))
    (hm : step_optimized rng₁ fuel s es = some (s', es', ts, false)) :
    step_optimized rng₂ fuel s es = some (s', es', ts, false) := by
  unfold step_optimized at hm ⊢
  split at hm
  · cases hm
  · rename_i s1 es1 ts1 u hb
    split at hm
    · cases hm
    · rename_i g2 hg
      rw [Option.some.injEq, Prod.mk.injEq, Prod.mk.injEq, Prod.mk.injEq] at hm
      obtain ⟨h1, h2, h3, h4⟩ := hm
      have hb2 := batch_move_det rng₁ rng₂ fuel es s _ _ _ (h4 ▸ hb)
      rw [hb2]
      dsimp only
      rw [hg]
      dsimp only
      rw [h1, h2, h3]

/-! ## C2 amended: the frame property of collision-free moves -/

/-- C2 amended: the batch loop applies no toggles beyond those made
inside the per-entity moves, and a move whose returned toggle list is
empty (no collision on the way) leaves the grid's cells unchanged; a
collision, however, flips the collision cell on the grid during the move
itself while also returning it in the toggle list. -/
theorem move_without_collision_grid_unchanged (rng : Nat → Nat) :
    ∀ (fuel : Nat) (s : Engine) (e : Entity) (s' : Engine) (e' : Entity)
      (r : MoveResult) (u : Bool),
      move_entity rng fuel s e = some (s', e', r, u) →
      r.additional_toggles = [] → s'.grid = s.grid := by
  intro fuel
  induction fuel with
  | zero => intro s e s' e' r u hm _; cases hm
  | succ n ih =>
    intro s e s' e' r u hm ht
    simp only [move_entity] at hm
    split at hm
    · have h5 := ih _ _ _ _ _ _ hm ht
      rw [h5, Engine.setDir_grid]
    · split at hm
      · cases hm
      · split at hm
        · split at hm
          · cases hm
          · split at hm
            · cases hm
            · rename_i s4 e4 r4 u4 hrec
              cases hm
              simp at ht
        · cases hm
          rfl

/-- Witness for C2 amended: the collision-free NIGHT move from (1,1) on a
fresh 5×5 grid leaves the grid unchanged. -/
theorem move_without_collision_grid_unchanged_witness :
    (Engine.init (Grid.create 5 5)).grid = (Engine.init (Grid.create 5 5)).grid :=
  move_without_collision_grid_unchanged rng0 1 (Engine.init (Grid.create 5 5))
    ⟨1, 1, 0, 0, CellType.night⟩ (Engine.init (Grid.create 5 5))
    ⟨0, 0, 1, 1, CellType.night⟩ ⟨true, 0, 0, []⟩ false rfl rfl

/-! ## C7: the direction state is always diagonal -/

/-- C7: both per-type direction slots start at ↖ (index 0, a diagonal),
and every successful move keeps both slots diagonal: boundary reflection,
collision alternative adoption, and the random fallback all write one of
the four diagonal indices (0, 2, 5, 7) back. -/
theorem direction_state_diagonal :
    (∀ g : Grid, (Engine.init g).dirNight = 0 ∧ (Engine.init g).dirDay = 0) ∧
    (∀ (rng : Nat → Nat) (fuel : Nat) (s : Engine) (e : Entity)
        (out : Engine × Entity × MoveResult × Bool),
      move_entity rng fuel s e = some out →
      isDiagonal s.dirNight → isDiagonal s.dirDay →
      isDiagonal out.1.dirNight ∧ isDiagonal out.1.dirDay) :=
  ⟨fun _ => ⟨rfl, rfl⟩,
    fun rng fuel s e out hm hN hD => move_entity_dirs_diag rng fuel s e out hm hN hD⟩

/-- Witness for C7 on a concrete successful move. -/
theorem direction_state_diagonal_witness :
    isDiagonal (Engine.init (Grid.create 5 5)).dirNight ∧
    isDiagonal (Engine.init (Grid.create 5 5)).dirDay :=
  direction_state_diagonal.2 rng0 1 (Engine.init (Grid.create 5 5))
    ⟨1, 1, 0, 0, CellType.night⟩
    (Engine.init (Grid.create 5 5), ⟨0, 0, 1, 1, CellType.night⟩, ⟨true, 0, 0, []⟩, false)
    rfl (Or.inl rfl) (Or.inl rfl)

/-! ## C9: determinism without the random branch -/

/-- C9: two runs from the same engine state and entity list, under any
two random oracles, produce identical per-step entity lists (the
trajectories), per-step toggle lists, and final grid and direction state,
provided the first run never takes the random collision-fallback branch
(random-use flag `false`). -/
theorem run_steps_deterministic (rng₁ rng₂ : Nat → Nat) (fuel : Nat) :
    ∀ (n : Nat) (s : Engine) (es : List Entity) (s' : Engine) (es' : List Entity)
      (trace : List (List Entity × List (Int × Int))),
      run_steps rng₁ fuel n s es = some (s', es', trace, false) →
      run_steps rng₂ fuel n s es = some (s', es', trace, false) := by
  intro n
  induction n with
  | zero => intro s es s' es' trace hm; exact hm
  | succ k ih =>
    intro s es s' es' trace hm
    simp only [run_steps] at hm ⊢
    split at hm
    · cases hm
    · rename_i s1 es1 ts u1 hs1
      split at hm
      · cases hm
      · rename_i s2 es2 tr u2 hr
        rw [Option.some.injEq, Prod.mk.injEq, Prod.mk.injEq, Prod.mk.injEq] at hm
        obtain ⟨h1, h2, h3, h4⟩ := hm
        rw [Bool.or_eq_false_iff] at h4
        have hstep := step_optimized_det rng₁ rng₂ fuel s es _ _ _ (h4.1 ▸ hs1)
        rw [hstep]
        dsimp only
        have hrun := ih _ _ _ _ _ (h4.2 ▸ hr)
        rw [hrun]
        dsimp only
        rw [h1, h2, h3]
        rfl

/-- Witness for C9: a one-step run under the oracle `rng1`, obtained by
transporting the same run under `rng0` (the run takes no random branch). -/
theorem run_steps_deterministic_witness :
    run_steps rng1 1 1 (Engine.init (Grid.create 5 5)) [⟨1, 1, 0, 0, CellType.night⟩] =
      some (Engine.init (Grid.create 5 5), [⟨0, 0, 1, 1, CellType.night⟩],
        [([⟨0, 0, 1, 1, CellType.night⟩], [])], false) :=
  run_steps_deterministic rng0 rng1 1 1 (Engine.init (Grid.create 5 5))
    [⟨1, 1, 0, 0, CellType.night⟩] (Engine.init (Grid.create 5 5))
    [⟨0, 0, 1, 1, CellType.night⟩] [([⟨0, 0, 1, 1, CellType.night⟩], [])] rfl

/-! ## C10: the success flag is always true -/

/-- C10: whenever `move_entity` returns a result, its success flag is
true — no return path produces `success = false` — and consequently the
`if result.success` filter in `batch_move_entities` never discards a
returned toggle list. -/
theorem move_result_always_success :
    (∀ (rng : Nat → Nat) (fuel : Nat) (s : Engine) (e : Entity) (s' : Engine)
        (e' : Entity) (r : MoveResult) (u : Bool),
      move_entity rng fuel s e = some (s', e', r, u) → r.success = true) ∧
    (∀ (rng : Nat → Nat) (fuel : Nat) (s : Engine) (e : Entity) (s' : Engine)
        (e' : Entity) (r : MoveResult) (u : Bool),
      move_entity rng fuel s e = some (s', e', r, u) →
      (if r.success then r.additional_toggles else []) = r.additional_toggles) := by
  have hs : ∀ (rng : Nat → Nat) (fuel : Nat) (s : Engine) (e : Entity) (s' : Engine)
      (e' : Entity) (r : MoveResult) (u : Bool),
      move_entity rng fuel s e = some (s', e', r, u) → r.success = true := by
    intro rng fuel
    induction fuel with
    | zero => intro s e s' e' r u hm; cases hm
    | succ n ih =>
      intro s e s' e' r u hm
      simp only [move_entity] at hm
      split at hm
      · exact ih _ _ _ _ _ _ hm
      · split at hm
        · cases hm
        · split at hm
          · split at hm
            · cases hm
            · split at hm
              · cases hm
              · rename_i s4 e4 r4 u4 hrec
                cases hm
                have h5 := ih _ _ _ _ _ _ hrec
                exact h5
          · cases hm
            rfl
  refine ⟨hs, fun rng fuel s e s' e' r u hm => ?_⟩
  rw [hs rng fuel s e s' e' r u hm]
  rfl

/-- Witness for C10 on a concrete successful move. -/
theorem move_result_always_success_witness :
    ({ success := true, new_x := 0, new_y := 0, additional_toggles := [] } :
      MoveResult).success = true :=
  move_result_always_success.1 rng0 1 (Engine.init (Grid.create 5 5))
    ⟨1, 1, 0, 0, CellType.night⟩ (Engine.init (Grid.create 5 5))
    ⟨0, 0, 1, 1, CellType.night⟩ ⟨true, 0, 0, []⟩ false rfl

end CellAuto
